import Mathlib

/-
Verification of the core update logic of the rolling_proto target-shooting
minigame (src/main.rs, src/camera.rs): the camera pitch/roll input handling
(camera_control), the ray-vs-bounding-sphere aim check and target-ring
promotion (aim_check / target_hit), and stochastic target placement with
deadzone avoidance (spawn_target / orient_target).

Embedding conventions:
 * 3D vectors are embedded over the rationals (exact arithmetic in place of
   f32); every geometric computation of the source (dot, cross, quaternion
   application, squared distances) is translated literally.
 * Orientation values (bevy/glam quaternions produced by trigonometric
   constructors: from_euler, from_rotation_arc, Transform::align) are treated
   as an abstract rotation backend: the record Ops packs those constructors
   as opaque-to-the-model functions, since the claims about them are purely
   structural (which constructor is called, with which arguments, and when).
   The one quaternion computation whose numeric value the claims depend on -
   Quat::from_axis_angle followed by mul_vec3 in the deadzone nudge - is
   embedded literally from glam's formulas, with the sine and cosine of the
   half angle supplied as parameters (SpawnEnv.s, SpawnEnv.c).
 * The random direction drawn by random_normalized_vec3 is an oracle input
   (SpawnEnv.u), constrained to unit length where a claim needs it.
 * Bevy ECS plumbing (queries, Commands) is replaced by explicit state: the
   target ring is a list of TargetE records carrying entity id, transform,
   material, state tag, visibility and bounding sphere; deferred despawn and
   spawn commands become the rebuilt list that aim_check returns.
-/

namespace RollingProto

/-- Three-dimensional vector with rational coordinates; models glam Vec3. -/
structure Vec3 where
  x : ℚ
  y : ℚ
  z : ℚ
deriving DecidableEq

instance : Add Vec3 := ⟨fun a b => ⟨a.x + b.x, a.y + b.y, a.z + b.z⟩⟩

instance : Sub Vec3 := ⟨fun a b => ⟨a.x - b.x, a.y - b.y, a.z - b.z⟩⟩

instance : SMul ℚ Vec3 := ⟨fun r v => ⟨r * v.x, r * v.y, r * v.z⟩⟩

/-- Dot product of two vectors. -/
def Vec3.dot (a b : Vec3) : ℚ := a.x * b.x + a.y * b.y + a.z * b.z

/-- Cross product of two vectors. -/
def Vec3.cross (a b : Vec3) : Vec3 :=
  ⟨a.y * b.z - a.z * b.y, a.z * b.x - a.x * b.z, a.x * b.y - a.y * b.x⟩

/-- Squared Euclidean length (glam length_squared). -/
def Vec3.lengthSq (v : Vec3) : ℚ := v.x * v.x + v.y * v.y + v.z * v.z

/-- Constant MAX_RADIUS from src/main.rs: the maximum length of the aim ray. -/
def MAX_RADIUS : ℚ := 20

/-- Constant TARGET_RADIUS from src/main.rs: bounding-sphere radius. -/
def TARGET_RADIUS : ℚ := 1

/-- Constant TARGET_DISTANCE from src/main.rs: target shell radius. -/
def TARGET_DISTANCE : ℚ := 8

/-- Constant DEADZONE_RADIUS_SQUARED from src/main.rs. -/
def DEADZONE_RADIUS_SQUARED : ℚ := 4

/-- Quaternion with rational components, models glam Quat (x, y, z, w). -/
structure QuatR where
  x : ℚ
  y : ℚ
  z : ℚ
  w : ℚ
deriving DecidableEq

/-- Embeds glam Quat::from_axis_angle(axis, angle): the quaternion
(axis * sin(angle/2), cos(angle/2)). The axis is used exactly as supplied
(glam does not normalize it); s and c stand for sin(angle/2) and
cos(angle/2), supplied by the caller since the embedding is over ℚ. -/
def quatFromAxisAngle (axis : Vec3) (s c : ℚ) : QuatR :=
  ⟨axis.x * s, axis.y * s, axis.z * s, c⟩

/-- Embeds glam Quat::mul_vec3 exactly as computed in glam's scalar path:
rhs * (w*w - b.dot(b)) + b * (rhs.dot(b) * 2) + b.cross(rhs) * (w * 2),
where b is the vector part. For a non-unit quaternion this is the sandwich
product q * v * conj(q), which scales lengths by the squared norm of q. -/
def QuatR.mulVec3 (q : QuatR) (v : Vec3) : Vec3 :=
  let b : Vec3 := ⟨q.x, q.y, q.z⟩
  let b2 : ℚ := b.dot b
  (q.w * q.w - b2) • v + (v.dot b * 2) • b + (q.w * 2) • (b.cross v)

/-- Bounding sphere: center and radius; models bevy BoundingSphere. -/
structure BSphere where
  center : Vec3
  radius : ℚ
deriving DecidableEq

/-- Modelled from the spec: the ray/sphere intersection test delegated by
aim_check to the external math library (RayCast3d::new + intersects, whose
source is not part of this repository). Per the HitDetector contract the test
is true iff the closest point on the ray clipped to the parameter range
[0, maxD] lies within the sphere's radius of its center. For a unit
direction the closest parameter of the clipped ray is the projection
dir ∙ (center - origin) clamped to [0, maxD]; the test compares the squared
distance at that parameter against the squared radius. -/
def rayHits (origin dir : Vec3) (maxD : ℚ) (s : BSphere) : Bool :=
  let tstar := dir.dot (s.center - origin)
  let tc := min (max tstar 0) maxD
  decide (((origin + tc • dir) - s.center).lengthSq ≤ s.radius * s.radius)

/-- The claim-side reading of the hit condition: some point of the ray with
parameter in [0, maxD] lies within the sphere radius of the center, i.e. the
closest approach of the restricted ray to the center is at most the radius. -/
def RayWithinRadius (origin dir : Vec3) (maxD : ℚ) (s : BSphere) : Prop :=
  ∃ t : ℚ, 0 ≤ t ∧ t ≤ maxD ∧
    ((origin + t • dir) - s.center).lengthSq ≤ s.radius * s.radius

@[simp] lemma Vec3.add_x (a b : Vec3) : (a + b).x = a.x + b.x := rfl

@[simp] lemma Vec3.add_y (a b : Vec3) : (a + b).y = a.y + b.y := rfl

@[simp] lemma Vec3.add_z (a b : Vec3) : (a + b).z = a.z + b.z := rfl

@[simp] lemma Vec3.sub_x (a b : Vec3) : (a - b).x = a.x - b.x := rfl

@[simp] lemma Vec3.sub_y (a b : Vec3) : (a - b).y = a.y - b.y := rfl

@[simp] lemma Vec3.sub_z (a b : Vec3) : (a - b).z = a.z - b.z := rfl

@[simp] lemma Vec3.smul_x (r : ℚ) (v : Vec3) : (r • v).x = r * v.x := rfl

@[simp] lemma Vec3.smul_y (r : ℚ) (v : Vec3) : (r • v).y = r * v.y := rfl

@[simp] lemma Vec3.smul_z (r : ℚ) (v : Vec3) : (r • v).z = r * v.z := rfl

@[simp] lemma Vec3.smul_mk (r x y z : ℚ) :
    r • (⟨x, y, z⟩ : Vec3) = ⟨r * x, r * y, r * z⟩ := rfl

lemma Vec3.lengthSq_ray (o d c : Vec3) (t : ℚ) :
    ((o + t • d) - c).lengthSq =
      t * t * d.lengthSq - 2 * t * (d.dot (c - o)) + (o - c).lengthSq := by
  simp only [Vec3.lengthSq, Vec3.dot, Vec3.add_x, Vec3.add_y, Vec3.add_z,
    Vec3.sub_x, Vec3.sub_y, Vec3.sub_z, Vec3.smul_x, Vec3.smul_y, Vec3.smul_z]
  ring

lemma quadratic_clamp_min (tstar M K t : ℚ) (hM : 0 ≤ M) (ht0 : 0 ≤ t) (htM : t ≤ M) :
    (min (max tstar 0) M) * (min (max tstar 0) M) - 2 * (min (max tstar 0) M) * tstar + K ≤
      t * t - 2 * t * tstar + K := by
  rcases le_total tstar 0 with h0 | h0
  · rw [max_eq_right h0, min_eq_left hM]
    nlinarith [mul_nonneg ht0 (neg_nonneg.mpr h0), sq_nonneg t]
  · rw [max_eq_left h0]
    rcases le_total tstar M with hsM | hsM
    · rw [min_eq_left hsM]
      nlinarith [sq_nonneg (t - tstar)]
    · rw [min_eq_right hsM]
      nlinarith [mul_nonneg (sub_nonneg.mpr htM)
        (by linarith : (0 : ℚ) ≤ 2 * tstar - t - M)]

/-- Characterization of the modelled ray cast: for a unit direction and a
nonnegative maximum length, the boolean test is true exactly when some ray
point with parameter in [0, maxD] lies within the radius of the center. -/
lemma rayHits_iff (o d : Vec3) (M : ℚ) (s : BSphere)
    (hd : d.lengthSq = 1) (hM : 0 ≤ M) :
    rayHits o d M s = true ↔ RayWithinRadius o d M s := by
  unfold rayHits RayWithinRadius
  rw [decide_eq_true_iff]
  constructor
  · intro h
    refine ⟨min (max (d.dot (s.center - o)) 0) M, ?_, ?_, h⟩
    · exact le_min (le_max_right _ _) hM
    · exact min_le_right _ _
  · rintro ⟨t, ht0, htM, ht⟩
    set tstar := d.dot (s.center - o) with htstar
    have e1 := Vec3.lengthSq_ray o d s.center (min (max tstar 0) M)
    have e2 := Vec3.lengthSq_ray o d s.center t
    rw [e1, hd]
    rw [e2, hd] at ht
    have := quadratic_clamp_min tstar M ((o - s.center).lengthSq) t hM ht0 htM
    calc (min (max tstar 0) M) * (min (max tstar 0) M) * 1 -
          2 * (min (max tstar 0) M) * tstar + (o - s.center).lengthSq
        = (min (max tstar 0) M) * (min (max tstar 0) M) -
          2 * (min (max tstar 0) M) * tstar + (o - s.center).lengthSq := by ring
      _ ≤ t * t - 2 * t * tstar + (o - s.center).lengthSq := this
      _ = t * t * 1 - 2 * t * tstar + (o - s.center).lengthSq := by ring
      _ ≤ s.radius * s.radius := ht

/-- Transform: translation plus an orientation from the abstract rotation
backend Q; models bevy Transform (scale is never touched by this code). -/
structure Transform (Q : Type) where
  translation : Vec3
  rotation : Q

/-- The abstract rotation backend: the bevy/glam orientation operations the
source calls whose numeric content is trigonometric and therefore outside the
rational embedding. Each field embeds one source call site:
 * mul - quaternion multiplication, as used by Transform::rotate_local
   (rotation := rotation * q);
 * fromEulerYXZ - Quat::from_euler(EulerRot::YXZ, yaw, pitch, roll);
 * right, up, forward - Transform::right(), up(), forward() as functions of
   the current rotation;
 * fromRotationArcNegX - Quat::from_rotation_arc(Vec3::X, -center.normalize())
   as a function of the center, the base facing built by spawn_target;
 * alignXDir3Y - Transform::align(Dir3::X, -translation.normalize(), Dir3::Y,
   aim_point) as a function of the translation and the aim point, the
   orientation written by orient_target. -/
structure Ops (Q : Type) where
  mul : Q → Q → Q
  fromEulerYXZ : ℚ → ℚ → ℚ → Q
  right : Q → Vec3
  up : Q → Vec3
  forward : Q → Vec3
  fromRotationArcNegX : Vec3 → Q
  alignXDir3Y : Vec3 → Vec3 → Q

/-- Camera settings component (src/main.rs CameraSettings): the per-action
rates. The key bindings are configuration resolved by the input layer; the
model receives the logical action booleans directly (Kbd). -/
structure CameraSettings where
  pitch_rate : ℚ
  roll_rate : ℚ

/-- Default CameraSettings: pitch_rate 0.01, roll_rate 0.02. -/
def defaultCameraSettings : CameraSettings := ⟨1/100, 1/50⟩

/-- Persistent per-camera accumulator component (CameraAimState). -/
structure CameraAimState where
  pitch : ℚ
  roll : ℚ
deriving DecidableEq

/-- The logical input actions camera_control reads this frame: the four
rotation actions bound to the arrow keys and the six debug translate actions
bound to the A/T/S/R/C/D cluster. -/
structure Kbd where
  pitching_up : Bool
  pitching_down : Bool
  rolling_left : Bool
  rolling_right : Bool
  debug_moving_up : Bool
  debug_moving_down : Bool
  debug_moving_right : Bool
  debug_moving_left : Bool
  debug_moving_fwd : Bool
  debug_moving_back : Bool

/-- pitch_total as accumulated in camera_control: starts at 0, adds
pitch_rate while pitch-up is pressed, subtracts it while pitch-down is. -/
def pitch_total (cs : CameraSettings) (kbd : Kbd) : ℚ :=
  let t : ℚ := 0
  let t := if kbd.pitching_up then t + cs.pitch_rate else t
  let t := if kbd.pitching_down then t - cs.pitch_rate else t
  t

/-- roll_total as accumulated in camera_control: adds roll_rate while
roll-left is pressed, subtracts it while roll-right is. -/
def roll_total (cs : CameraSettings) (kbd : Kbd) : ℚ :=
  let t : ℚ := 0
  let t := if kbd.rolling_left then t + cs.roll_rate else t
  let t := if kbd.rolling_right then t - cs.roll_rate else t
  t

/-- debug_mov_u_total of camera_control (rate 0.01 hard-coded). -/
def debug_mov_u_total (kbd : Kbd) : ℚ :=
  let t : ℚ := 0
  let t := if kbd.debug_moving_up then t + 1/100 else t
  let t := if kbd.debug_moving_down then t - 1/100 else t
  t

/-- debug_mov_r_total of camera_control. -/
def debug_mov_r_total (kbd : Kbd) : ℚ :=
  let t : ℚ := 0
  let t := if kbd.debug_moving_right then t + 1/100 else t
  let t := if kbd.debug_moving_left then t - 1/100 else t
  t

/-- debug_mov_f_total of camera_control. -/
def debug_mov_f_total (kbd : Kbd) : ℚ :=
  let t : ℚ := 0
  let t := if kbd.debug_moving_fwd then t + 1/100 else t
  let t := if kbd.debug_moving_back then t - 1/100 else t
  t

/-- Embeds the per-camera body of camera_control (src/main.rs lines 252-330,
identical in src/camera.rs): reads the stored accumulator into the locals
cam_pitch and cam_roll, accumulates this frame's totals, applies the debug
free-fly translation when any debug total is nonzero (using the axes of the
pre-update rotation, as the source reads them before rotate_local), adds the
totals into the locals, and when either rotation total is nonzero composes
the rotation with Quat::from_euler(YXZ, 0, cam_pitch, cam_roll) via
rotate_local. The source never writes cam_pitch or cam_roll back into the
CameraAimState component (cam_state is not bound mutably and has no
assignment), so the returned component state is the input one. -/
def camera_control {Q : Type} (ops : Ops Q) (cs : CameraSettings) (kbd : Kbd)
    (cam_state : CameraAimState) (transform : Transform Q) :
    CameraAimState × Transform Q :=
  let u := debug_mov_u_total kbd
  let r := debug_mov_r_total kbd
  let f := debug_mov_f_total kbd
  let translation :=
    if f ≠ 0 ∨ r ≠ 0 ∨ u ≠ 0 then
      transform.translation +
        (r • ops.right transform.rotation + u • ops.up transform.rotation +
          f • ops.forward transform.rotation)
    else transform.translation
  let cam_pitch := cam_state.pitch + pitch_total cs kbd
  let cam_roll := cam_state.roll + roll_total cs kbd
  let rotation :=
    if pitch_total cs kbd ≠ 0 ∨ roll_total cs kbd ≠ 0 then
      ops.mul transform.rotation (ops.fromEulerYXZ 0 cam_pitch cam_roll)
    else transform.rotation
  (cam_state, ⟨translation, rotation⟩)

/-- N consecutive frames of camera_control with a fixed held input. -/
def camera_control_iter {Q : Type} (ops : Ops Q) (cs : CameraSettings)
    (kbd : Kbd) : ℕ → CameraAimState × Transform Q → CameraAimState × Transform Q
  | 0, st => st
  | n + 1, st => camera_control_iter ops cs kbd n (camera_control ops cs kbd st.1 st.2)

/-- Target lifecycle state tag (src/main.rs TargetState). -/
inductive TargetState where
  | Active
  | Next
  | Ghost
deriving DecidableEq

/-- Material selector: the handles held in MyAssets that targets use. -/
inductive Mat where
  | arrow
  | arrowFaded
deriving DecidableEq

/-- Visibility component value. -/
inductive Vis where
  | Visible
  | Hidden
deriving DecidableEq

/-- A target entity: the components spawned by spawn_target (Target bundle),
tagged with its ECS entity id. -/
structure TargetE (Q : Type) where
  id : ℕ
  transform : Transform Q
  material : Mat
  state : TargetState
  visibility : Vis
  bounding : BSphere

/-- Oracle inputs of spawn_target: u is the unit vector drawn by
random_normalized_vec3, and s, c are sin(DEADZONE_ADJ_THETA * 0.5) and
cos(DEADZONE_ADJ_THETA * 0.5), the half-angle sine-cosine pair glam's
Quat::from_axis_angle computes for the fixed angle DEADZONE_ADJ_THETA. -/
structure SpawnEnv where
  u : Vec3
  s : ℚ
  c : ℚ

/-- Record of one spawn_target invocation: the state, aim point and deadzone
arguments it received and the position it returned. -/
structure SpawnCall where
  state : TargetState
  aim_point : Option Vec3
  deadzone : Option Vec3
  pos : Vec3

/-- Everything spawn_target produces: the returned center, the spawned
entity, and the record of the arguments of the call. -/
structure SpawnResult (Q : Type) where
  pos : Vec3
  target : TargetE Q
  call : SpawnCall

/-- Embeds orient_target (src/main.rs lines 496-499): writes the orientation
produced by Transform::align(Dir3::X, -translation.normalize(), Dir3::Y,
aim_point) onto the transform; align assigns only the rotation. -/
def orient_target {Q : Type} (ops : Ops Q) (t : Transform Q) (aim_point : Vec3) :
    Transform Q :=
  { t with rotation := ops.alignXDir3Y t.translation aim_point }

/-- Embeds spawn_target (src/main.rs lines 438-494). The candidate center is
the random unit vector scaled by TARGET_DISTANCE. If a deadzone center is
supplied and the candidate lies at squared distance below
DEADZONE_RADIUS_SQUARED from it, the candidate is replaced by the result of
applying Quat::from_axis_angle(btwn.cross(candidate), DEADZONE_ADJ_THETA)
via mul_vec3 - with the cross product passed as the axis exactly as the
source does, unnormalized. The bounding sphere is fixed at the final center
with radius TARGET_RADIUS; material and visibility are determined by the
state tag; the base facing comes from Quat::from_rotation_arc and, when an
aim point is supplied, orient_target overwrites it. -/
def spawn_target {Q : Type} (ops : Ops Q) (env : SpawnEnv) (freshId : ℕ)
    (state : TargetState) (aim_point deadzone : Option Vec3) : SpawnResult Q :=
  let tc0 := TARGET_DISTANCE • env.u
  let target_center :=
    match deadzone with
    | none => tc0
    | some dz =>
      let btwn := tc0 - dz
      if btwn.lengthSq < DEADZONE_RADIUS_SQUARED then
        (quatFromAxisAngle (btwn.cross tc0) env.s env.c).mulVec3 tc0
      else tc0
  let bounding : BSphere := ⟨target_center, TARGET_RADIUS⟩
  let mat :=
    match state with
    | .Active => Mat.arrow
    | .Next => Mat.arrowFaded
    | .Ghost => Mat.arrowFaded
  let vis :=
    match state with
    | .Active => Vis.Visible
    | .Next => Vis.Visible
    | .Ghost => Vis.Hidden
  let t0 : Transform Q := ⟨target_center, ops.fromRotationArcNegX target_center⟩
  let t1 :=
    match aim_point with
    | some ap => orient_target ops t0 ap
    | none => t0
  { pos := target_center,
    target := ⟨freshId, t1, mat, state, vis, bounding⟩,
    call := ⟨state, aim_point, deadzone, target_center⟩ }

/-- Embeds target_hit (src/main.rs lines 420-436): despawns the hit entity
and spawns the replacement Ghost via spawn_target with aim_point None and
the deadzone it was handed. Returns the despawned id with the spawn result. -/
def target_hit {Q : Type} (ops : Ops Q) (env : SpawnEnv) (freshId : ℕ)
    (hit_target_id : ℕ) (deadzone : Option Vec3) : ℕ × SpawnResult Q :=
  (hit_target_id, spawn_target ops env freshId .Ghost none deadzone)

/-- Accumulator of aim_check's query loop: the hit flag, the id of the last
Active target seen, and the last Next and Ghost targets seen (the loop's
stored component references). -/
structure ScanAcc (Q : Type) where
  hit : Bool
  activeId : Option ℕ
  nextT : Option (TargetE Q)
  ghostT : Option (TargetE Q)

/-- One iteration of aim_check's loop over the target query: an Active
target records its id and ORs the ray test into the hit flag; a Next or
Ghost target is remembered for the transition. -/
def scanStep {Q : Type} (origin dir : Vec3) (acc : ScanAcc Q) (t : TargetE Q) :
    ScanAcc Q :=
  match t.state with
  | .Active =>
    { acc with activeId := some t.id,
               hit := acc.hit || rayHits origin dir MAX_RADIUS t.bounding }
  | .Next => { acc with nextT := some t }
  | .Ghost => { acc with ghostT := some t }

/-- The whole loop of aim_check over the target query, in query order. -/
def scanTargets {Q : Type} (origin dir : Vec3) (targets : List (TargetE Q)) :
    ScanAcc Q :=
  targets.foldl (scanStep origin dir) ⟨false, none, none, none⟩

/-- Embeds aim_check (src/main.rs lines 340-418). With no camera the frame
is a no-op. Otherwise a ray is cast from the camera translation along its
forward axis with max length MAX_RADIUS and the target query is scanned.
When the ray hit an Active target: a missing Next or Ghost aborts the
process (modelled as Except.error carrying the panic message); otherwise the
Next becomes Active with the bright arrow material, the Ghost becomes Next
and visible, target_hit despawns the Active and spawns a replacement Ghost
handing it the old Ghost translation, and the promoted old Ghost is
re-oriented toward the new Ghost's position. The returned list is the target
set after bevy applies the deferred despawn and spawn commands; the returned
SpawnCall records the spawn_target invocation of the frame, if any. -/
def aim_check {Q : Type} (ops : Ops Q) (env : SpawnEnv) (freshId : ℕ)
    (camera : Option (Transform Q)) (targets : List (TargetE Q)) :
    Except String (List (TargetE Q) × Option SpawnCall) :=
  match camera with
  | none => .ok (targets, none)
  | some cam =>
    let aim := ops.forward cam.rotation
    let acc := scanTargets cam.translation aim targets
    if acc.hit && acc.activeId.isSome then
      match acc.nextT with
      | none => .error "Next target missing!"
      | some nt =>
        match acc.ghostT with
        | none => .error "Ghost target missing!"
        | some gt =>
          let eff := target_hit ops env freshId (acc.activeId.getD 0)
            (some gt.transform.translation)
          let new_ghost_pos := eff.2.pos
          let updated := targets.filterMap fun t =>
            if t.id = eff.1 then none
            else if t.id = nt.id then
              some { t with state := .Active, material := Mat.arrow }
            else if t.id = gt.id then
              some { t with state := .Next, visibility := Vis.Visible,
                            transform := orient_target ops t.transform new_ghost_pos }
            else some t
          .ok (updated ++ [eff.2.target], some eff.2.call)
    else .ok (targets, none)

/-- The spawn record of an aim_check frame, if the frame spawned. -/
def spawnCallOf {Q : Type}
    (r : Except String (List (TargetE Q) × Option SpawnCall)) : Option SpawnCall :=
  match r with
  | .ok (_, call) => call
  | .error _ => none

/-- Whether an aim_check frame aborted the process. -/
def isPanic {Q : Type}
    (r : Except String (List (TargetE Q) × Option SpawnCall)) : Bool :=
  match r with
  | .ok _ => false
  | .error _ => true

/-- Trivial rotation backend over Unit, for evaluating the camera state
machine where orientation values are irrelevant. -/
def trivOps : Ops Unit :=
  ⟨fun _ _ => (), fun _ _ _ => (), fun _ => ⟨0, 0, 0⟩, fun _ => ⟨0, 0, 0⟩,
    fun _ => ⟨0, 0, 0⟩, fun _ => (), fun _ _ => ()⟩

/-- Input with only the pitch-up action held. -/
def pitchUpHeld : Kbd :=
  ⟨true, false, false, false, false, false, false, false, false, false⟩

/-- Across any number of frames, camera_control passes the stored
CameraAimState through untouched. -/
lemma camera_control_iter_fst {Q : Type} (ops : Ops Q) (cs : CameraSettings)
    (kbd : Kbd) : ∀ (n : ℕ) (st : CameraAimState × Transform Q),
    (camera_control_iter ops cs kbd n st).1 = st.1 := by
  intro n
  induction n with
  | zero => intro st; rfl
  | succ k ih =>
    intro st
    rw [camera_control_iter, ih]
    rfl

/-- Claim C9 (confirmed): for every keyboard input and starting state, one
run of camera_control leaves the stored CameraAimState fields pitch and roll
unchanged - the accumulated values are read into the locals cam_pitch and
cam_roll and never written back to the component. -/
theorem camera_control_state_unchanged {Q : Type} (ops : Ops Q)
    (cs : CameraSettings) (kbd : Kbd) (st : CameraAimState) (t : Transform Q) :
    (camera_control ops cs kbd st t).1.pitch = st.pitch ∧
    (camera_control ops cs kbd st t).1.roll = st.roll :=
  ⟨rfl, rfl⟩

/-- Claim C4 (code_bug): the spec says holding pitch-up for N frames leaves
the stored accumulator at N * pitch_rate, but camera_control never writes
the locals back into the CameraAimState component. At the failing input -
pitch-up held for 2 frames from the default state with the default rate
0.01 - the stored pitch is still 0, not 2 * 0.01. -/
theorem camera_control_pitch_never_persisted :
    (camera_control_iter trivOps defaultCameraSettings pitchUpHeld 2
      (⟨0, 0⟩, ⟨⟨0, 0, 0⟩, ()⟩)).1.pitch = 0 ∧
    ¬((camera_control_iter trivOps defaultCameraSettings pitchUpHeld 2
      (⟨0, 0⟩, ⟨⟨0, 0, 0⟩, ()⟩)).1.pitch = 2 * defaultCameraSettings.pitch_rate) := by
  have h : (camera_control_iter trivOps defaultCameraSettings pitchUpHeld 2
      (⟨0, 0⟩, ⟨⟨0, 0, 0⟩, ()⟩)).1.pitch = 0 := by
    rw [camera_control_iter_fst]
  refine ⟨h, ?_⟩
  rw [h]
  norm_num [defaultCameraSettings]

/-- Claim C5 (confirmed): on any frame, when the pitch delta or the roll
delta is nonzero the camera rotation becomes the old rotation composed (via
rotate_local, i.e. right multiplication) with Quat::from_euler(YXZ, 0,
cam_pitch, cam_roll) where cam_pitch and cam_roll are the full accumulated
values (the stored component plus this frame's delta); when both deltas are
zero the rotation is left exactly unchanged. -/
theorem camera_control_rotation_rule {Q : Type} (ops : Ops Q)
    (cs : CameraSettings) (kbd : Kbd) (st : CameraAimState) (t : Transform Q) :
    (pitch_total cs kbd ≠ 0 ∨ roll_total cs kbd ≠ 0 →
      (camera_control ops cs kbd st t).2.rotation =
        ops.mul t.rotation (ops.fromEulerYXZ 0 (st.pitch + pitch_total cs kbd)
          (st.roll + roll_total cs kbd))) ∧
    (pitch_total cs kbd = 0 ∧ roll_total cs kbd = 0 →
      (camera_control ops cs kbd st t).2.rotation = t.rotation) := by
  constructor
  · intro h
    show (if pitch_total cs kbd ≠ 0 ∨ roll_total cs kbd ≠ 0 then
        ops.mul t.rotation (ops.fromEulerYXZ 0 (st.pitch + pitch_total cs kbd)
          (st.roll + roll_total cs kbd))
      else t.rotation) = _
    rw [if_pos h]
  · rintro ⟨h1, h2⟩
    show (if pitch_total cs kbd ≠ 0 ∨ roll_total cs kbd ≠ 0 then
        ops.mul t.rotation (ops.fromEulerYXZ 0 (st.pitch + pitch_total cs kbd)
          (st.roll + roll_total cs kbd))
      else t.rotation) = _
    rw [if_neg (by push_neg; exact ⟨h1, h2⟩)]

lemma foldl_scan_hit {Q : Type} (o d : Vec3) :
    ∀ (ts : List (TargetE Q)) (acc : ScanAcc Q),
    ((ts.foldl (scanStep o d) acc).hit = true ↔
      acc.hit = true ∨ ∃ t ∈ ts, t.state = .Active ∧
        rayHits o d MAX_RADIUS t.bounding = true) := by
  intro ts
  induction ts with
  | nil => intro acc; simp
  | cons t ts ih =>
    intro acc
    rw [List.foldl_cons, ih]
    rcases hstate : t.state with _ | _ | _
    · simp [scanStep, hstate, Bool.or_eq_true]
      tauto
    · simp [scanStep, hstate]
    · simp [scanStep, hstate]

lemma foldl_scan_nextT {Q : Type} (o d : Vec3) :
    ∀ (ts : List (TargetE Q)) (acc : ScanAcc Q),
    ((ts.foldl (scanStep o d) acc).nextT = none ↔
      acc.nextT = none ∧ ∀ t ∈ ts, t.state ≠ .Next) := by
  intro ts
  induction ts with
  | nil => intro acc; simp
  | cons t ts ih =>
    intro acc
    rw [List.foldl_cons, ih]
    rcases hstate : t.state with _ | _ | _ <;> simp [scanStep, hstate]

lemma foldl_scan_ghostT {Q : Type} (o d : Vec3) :
    ∀ (ts : List (TargetE Q)) (acc : ScanAcc Q),
    ((ts.foldl (scanStep o d) acc).ghostT = none ↔
      acc.ghostT = none ∧ ∀ t ∈ ts, t.state ≠ .Ghost) := by
  intro ts
  induction ts with
  | nil => intro acc; simp
  | cons t ts ih =>
    intro acc
    rw [List.foldl_cons, ih]
    rcases hstate : t.state with _ | _ | _ <;> simp [scanStep, hstate]

lemma foldl_scan_activeId {Q : Type} (o d : Vec3) :
    ∀ (ts : List (TargetE Q)) (acc : ScanAcc Q),
    (acc.hit = true → acc.activeId.isSome = true) →
    ((ts.foldl (scanStep o d) acc).hit = true →
      (ts.foldl (scanStep o d) acc).activeId.isSome = true) := by
  intro ts
  induction ts with
  | nil => intro acc h; exact h
  | cons t ts ih =>
    intro acc h
    rw [List.foldl_cons]
    apply ih
    rcases hstate : t.state with _ | _ | _ <;> simp [scanStep, hstate] <;> exact h

/-- The hit flag of the scan is set exactly when some Active target of the
query passes the ray test. -/
lemma scanTargets_hit_iff {Q : Type} (o d : Vec3) (ts : List (TargetE Q)) :
    ((scanTargets o d ts).hit = true ↔
      ∃ t ∈ ts, t.state = .Active ∧ rayHits o d MAX_RADIUS t.bounding = true) := by
  rw [scanTargets, foldl_scan_hit]
  simp

/-- The scan records no Next exactly when the query holds no Next target. -/
lemma scanTargets_next_none_iff {Q : Type} (o d : Vec3) (ts : List (TargetE Q)) :
    ((scanTargets o d ts).nextT = none ↔ ∀ t ∈ ts, t.state ≠ .Next) := by
  rw [scanTargets, foldl_scan_nextT]
  simp

/-- The scan records no Ghost exactly when the query holds no Ghost target. -/
lemma scanTargets_ghost_none_iff {Q : Type} (o d : Vec3) (ts : List (TargetE Q)) :
    ((scanTargets o d ts).ghostT = none ↔ ∀ t ∈ ts, t.state ≠ .Ghost) := by
  rw [scanTargets, foldl_scan_ghostT]
  simp

/-- When the scan reports a hit it has also recorded an Active id (the hit
flag is only ever set in the Active branch, right after the id). -/
lemma scanTargets_hit_activeId {Q : Type} (o d : Vec3) (ts : List (TargetE Q)) :
    (scanTargets o d ts).hit = true → (scanTargets o d ts).activeId.isSome = true := by
  exact foldl_scan_activeId o d ts _ (by intro h; simp at h)

/-- Scanning a well-formed ring in query order: the hit flag is the ray test
against the Active target, and the Active id, Next and Ghost are recorded. -/
lemma scanTargets_ring {Q : Type} (o d : Vec3) (a n g : TargetE Q)
    (ha : a.state = .Active) (hn : n.state = .Next) (hg : g.state = .Ghost) :
    scanTargets o d [a, n, g] =
      ⟨rayHits o d MAX_RADIUS a.bounding, some a.id, some n, some g⟩ := by
  simp [scanTargets, scanStep, ha, hn, hg]

/-- On a well-formed ring, a frame whose ray test against the Active target
fails changes nothing: aim_check returns the targets unchanged, no spawn. -/
lemma aim_check_ring_nohit {Q : Type} (ops : Ops Q) (env : SpawnEnv) (fid : ℕ)
    (cam : Transform Q) (a n g : TargetE Q)
    (ha : a.state = .Active) (hn : n.state = .Next) (hg : g.state = .Ghost)
    (hhit : rayHits cam.translation (ops.forward cam.rotation) MAX_RADIUS
      a.bounding = false) :
    aim_check ops env fid (some cam) [a, n, g] = .ok ([a, n, g], none) := by
  simp only [aim_check]
  rw [scanTargets_ring _ _ a n g ha hn hg]
  simp [hhit]

/-- On a well-formed ring with distinct entity ids, a frame whose ray test
against the Active target succeeds executes the full promotion transition:
the Active entity is despawned, the Next keeps its transform but becomes
Active with the bright arrow material, the Ghost becomes Next, visible, and
re-oriented toward the new spawn position, and a fresh Ghost spawned with
aim_point None and the old Ghost translation as deadzone is appended. -/
lemma aim_check_ring_hit {Q : Type} (ops : Ops Q) (env : SpawnEnv) (fid : ℕ)
    (cam : Transform Q) (a n g : TargetE Q)
    (ha : a.state = .Active) (hn : n.state = .Next) (hg : g.state = .Ghost)
    (han : a.id ≠ n.id) (hag : a.id ≠ g.id) (hng : n.id ≠ g.id)
    (hhit : rayHits cam.translation (ops.forward cam.rotation) MAX_RADIUS
      a.bounding = true) :
    aim_check ops env fid (some cam) [a, n, g] =
      .ok ([{ n with state := .Active, material := Mat.arrow },
            { g with
                state := .Next
                visibility := Vis.Visible
                transform := orient_target ops g.transform
                  (spawn_target ops env fid .Ghost none
                    (some g.transform.translation)).pos },
            (spawn_target ops env fid .Ghost none
              (some g.transform.translation)).target],
        some (spawn_target ops env fid .Ghost none
          (some g.transform.translation)).call) := by
  have hna : ¬(n.id = a.id) := fun h => han h.symm
  have hga : ¬(g.id = a.id) := fun h => hag h.symm
  have hgn : ¬(g.id = n.id) := fun h => hng h.symm
  simp only [aim_check]
  rw [scanTargets_ring _ _ a n g ha hn hg]
  simp [hhit, target_hit, List.filterMap, hna, hga, hgn]

/-- Promotion frames always record the spawn call of the replacement Ghost:
spawn_target is invoked with state Ghost, no aim point, and the old Ghost's
translation as the deadzone (no id assumptions needed). -/
lemma aim_check_ring_hit_call {Q : Type} (ops : Ops Q) (env : SpawnEnv) (fid : ℕ)
    (cam : Transform Q) (a n g : TargetE Q)
    (ha : a.state = .Active) (hn : n.state = .Next) (hg : g.state = .Ghost)
    (hhit : rayHits cam.translation (ops.forward cam.rotation) MAX_RADIUS
      a.bounding = true) :
    spawnCallOf (aim_check ops env fid (some cam) [a, n, g]) =
      some (spawn_target ops env fid .Ghost none
        (some g.transform.translation)).call := by
  simp only [aim_check]
  rw [scanTargets_ring _ _ a n g ha hn hg]
  simp [hhit, target_hit, spawnCallOf]

lemma Vec3.dot_self (v : Vec3) : v.dot v = v.lengthSq := rfl

lemma Vec3.lengthSq_nonneg (v : Vec3) : 0 ≤ v.lengthSq := by
  obtain ⟨x, y, z⟩ := v
  simp only [Vec3.lengthSq]
  have hx := mul_self_nonneg x
  have hy := mul_self_nonneg y
  have hz := mul_self_nonneg z
  linarith

lemma Vec3.lengthSq_smul (r : ℚ) (v : Vec3) :
    (r • v).lengthSq = r * r * v.lengthSq := by
  obtain ⟨x, y, z⟩ := v
  simp only [Vec3.lengthSq, Vec3.smul_x, Vec3.smul_y, Vec3.smul_z]
  ring

/-- Key algebra of the deadzone nudge: applying the axis-angle quaternion
with axis b x v to v and taking the dot with v collapses to
(c^2 - s^2 |b x v|^2) |v|^2: the middle term of mul_vec3 vanishes because v
is orthogonal to b x v, and so does the cross term. -/
lemma mulVec3_axis_dot (b v : Vec3) (s c : ℚ) :
    ((quatFromAxisAngle (b.cross v) s c).mulVec3 v).dot v =
      (c * c - s * s * (b.cross v).lengthSq) * v.lengthSq := by
  obtain ⟨b1, b2, b3⟩ := b
  obtain ⟨v1, v2, v3⟩ := v
  simp only [quatFromAxisAngle, QuatR.mulVec3, Vec3.cross, Vec3.dot, Vec3.lengthSq,
    Vec3.add_x, Vec3.add_y, Vec3.add_z, Vec3.smul_x, Vec3.smul_y, Vec3.smul_z]
  ring

/-- The position spawn_target returns when the candidate falls inside the
deadzone: the axis-angle quaternion applied to the candidate. -/
lemma spawn_target_pos_deadzone {Q : Type} (ops : Ops Q) (env : SpawnEnv)
    (fid : ℕ) (st : TargetState) (ap : Option Vec3) (dz : Vec3)
    (h : (TARGET_DISTANCE • env.u - dz).lengthSq < DEADZONE_RADIUS_SQUARED) :
    (spawn_target ops env fid st ap (some dz)).pos =
      (quatFromAxisAngle ((TARGET_DISTANCE • env.u - dz).cross
        (TARGET_DISTANCE • env.u)) env.s env.c).mulVec3 (TARGET_DISTANCE • env.u) := by
  simp only [spawn_target]
  rw [if_pos h]

/-- The position spawn_target returns when the candidate falls outside the
deadzone (or none is supplied): the raw candidate. -/
lemma spawn_target_pos_outside {Q : Type} (ops : Ops Q) (env : SpawnEnv)
    (fid : ℕ) (st : TargetState) (ap : Option Vec3) (dz : Vec3)
    (h : ¬((TARGET_DISTANCE • env.u - dz).lengthSq < DEADZONE_RADIUS_SQUARED)) :
    (spawn_target ops env fid st ap (some dz)).pos = TARGET_DISTANCE • env.u := by
  simp only [spawn_target]
  rw [if_neg h]

/-- Concrete rotation backend over ℚ used to evaluate the model at specific
inputs (the abstract orientation constructors get arbitrary but fixed
computable values; no claim depends on which). -/
def demoOps : Ops ℚ :=
  ⟨fun q r => q * 2 + r, fun y p r => y + p * 3 + r * 5, fun _ => ⟨1, 0, 0⟩,
    fun _ => ⟨0, 1, 0⟩, fun _ => ⟨1, 0, 0⟩, fun v => v.x, fun t a => t.y + a.z⟩

/-- Concrete spawn oracle: unit direction (3/5, 4/5, 0) and the Pythagorean
sine-cosine pair (3/5, 4/5). -/
def demoEnv : SpawnEnv := ⟨⟨3/5, 4/5, 0⟩, 3/5, 4/5⟩

/-- Concrete camera at the origin; demoOps gives it forward axis (1,0,0). -/
def demoCam : Transform ℚ := ⟨⟨0, 0, 0⟩, 0⟩

/-- Concrete Active target dead ahead of demoCam at distance 8. -/
def demoActive : TargetE ℚ :=
  ⟨1, ⟨⟨8, 0, 0⟩, 0⟩, Mat.arrow, .Active, Vis.Visible, ⟨⟨8, 0, 0⟩, 1⟩⟩

/-- Concrete Next target. -/
def demoNext : TargetE ℚ :=
  ⟨2, ⟨⟨0, 8, 0⟩, 0⟩, Mat.arrowFaded, .Next, Vis.Visible, ⟨⟨0, 8, 0⟩, 1⟩⟩

/-- Concrete Ghost target. -/
def demoGhost : TargetE ℚ :=
  ⟨3, ⟨⟨0, 0, 8⟩, 0⟩, Mat.arrowFaded, .Ghost, Vis.Hidden, ⟨⟨0, 0, 8⟩, 1⟩⟩

/-- The demo camera's ray hits the demo Active target (closest approach 0 at
parameter 8 of the clipped ray). -/
lemma demoHitTrue :
    rayHits demoCam.translation (demoOps.forward demoCam.rotation) MAX_RADIUS
      demoActive.bounding = true := by
  have h8 : min (max (8 : ℚ) 0) 20 = 8 := by norm_num
  norm_num [rayHits, demoCam, demoOps, demoActive, MAX_RADIUS, Vec3.dot,
    Vec3.lengthSq, h8]

/-- Claim C1 (confirmed): on a ring holding an Active, a Next and a Ghost, a
frame of aim_check triggers the promotion (records a spawn) exactly when the
ray from the camera position along its unit forward direction, restricted to
parameters [0, MAX_RADIUS], comes within the bounding-sphere radius of the
Active target's center; and when it does not, the frame returns every target
unchanged with nothing spawned. (The clipped ray's closest-approach
parameter never exceeds MAX_RADIUS, so the claim's final proviso is the
contrapositive of the same condition.) -/
theorem aim_check_promotion_iff_ray {Q : Type} (ops : Ops Q) (env : SpawnEnv)
    (fid : ℕ) (cam : Transform Q) (a n g : TargetE Q)
    (ha : a.state = .Active) (hn : n.state = .Next) (hg : g.state = .Ghost)
    (hd : (ops.forward cam.rotation).lengthSq = 1) :
    (spawnCallOf (aim_check ops env fid (some cam) [a, n, g]) ≠ none ↔
      RayWithinRadius cam.translation (ops.forward cam.rotation) MAX_RADIUS
        a.bounding) ∧
    (¬RayWithinRadius cam.translation (ops.forward cam.rotation) MAX_RADIUS
        a.bounding →
      aim_check ops env fid (some cam) [a, n, g] = .ok ([a, n, g], none)) := by
  have hM : (0 : ℚ) ≤ MAX_RADIUS := by norm_num [MAX_RADIUS]
  have hiff := rayHits_iff cam.translation (ops.forward cam.rotation) MAX_RADIUS
    a.bounding hd hM
  cases hb : rayHits cam.translation (ops.forward cam.rotation) MAX_RADIUS
      a.bounding with
  | false =>
    have hnr : ¬RayWithinRadius cam.translation (ops.forward cam.rotation)
        MAX_RADIUS a.bounding := by
      intro hr
      have := hiff.mpr hr
      rw [this] at hb
      simp at hb
    have hok := aim_check_ring_nohit ops env fid cam a n g ha hn hg hb
    refine ⟨⟨fun hc => ?_, fun hr => absurd hr hnr⟩, fun _ => hok⟩
    exact absurd (by rw [hok]; rfl) hc
  | true =>
    have hr := hiff.mp hb
    have hcall := aim_check_ring_hit_call ops env fid cam a n g ha hn hg hb
    refine ⟨⟨fun _ => hr, fun _ => ?_⟩, fun hnr => absurd hr hnr⟩
    rw [hcall]
    exact Option.some_ne_none _

/-- Witness for C1: the demo camera's clipped ray reaches the demo Active
target at parameter 8 with distance 0, so the frame promotes. -/
theorem aim_check_promotion_iff_ray_witness :
    spawnCallOf (aim_check demoOps demoEnv 9 (some demoCam)
      [demoActive, demoNext, demoGhost]) ≠ none := by
  apply (aim_check_promotion_iff_ray demoOps demoEnv 9 demoCam demoActive demoNext
    demoGhost rfl rfl rfl (by norm_num [demoOps, demoCam, Vec3.lengthSq])).1.mpr
  refine ⟨8, by norm_num, by norm_num [MAX_RADIUS], ?_⟩
  norm_num [demoOps, demoCam, demoActive, Vec3.lengthSq]

/-- Claim C2 (confirmed): when the promotion fires, the Active entity is
despawned; the Next target keeps its transform (position and orientation)
and only its state tag flips to Active and its material to the bright
arrow; the Ghost target's tag becomes Next and it becomes visible; and the
promoted old Ghost's transform is re-oriented (via orient_target, which
keeps its translation) toward the newly spawned Ghost's position. -/
theorem aim_check_promotion_effects {Q : Type} (ops : Ops Q) (env : SpawnEnv)
    (fid : ℕ) (cam : Transform Q) (a n g : TargetE Q)
    (ha : a.state = .Active) (hn : n.state = .Next) (hg : g.state = .Ghost)
    (han : a.id ≠ n.id) (hag : a.id ≠ g.id) (hng : n.id ≠ g.id)
    (hhit : rayHits cam.translation (ops.forward cam.rotation) MAX_RADIUS
      a.bounding = true) :
    aim_check ops env fid (some cam) [a, n, g] =
      .ok ([{ n with state := .Active, material := Mat.arrow },
            { g with
                state := .Next
                visibility := Vis.Visible
                transform := orient_target ops g.transform
                  (spawn_target ops env fid .Ghost none
                    (some g.transform.translation)).pos },
            (spawn_target ops env fid .Ghost none
              (some g.transform.translation)).target],
        some (spawn_target ops env fid .Ghost none
          (some g.transform.translation)).call) :=
  aim_check_ring_hit ops env fid cam a n g ha hn hg han hag hng hhit

/-- Witness for C2: the full promotion transition evaluated on the demo
ring. -/
theorem aim_check_promotion_effects_witness :
    aim_check demoOps demoEnv 9 (some demoCam) [demoActive, demoNext, demoGhost] =
      .ok ([{ demoNext with state := .Active, material := Mat.arrow },
            { demoGhost with
                state := .Next
                visibility := Vis.Visible
                transform := orient_target demoOps demoGhost.transform
                  (spawn_target demoOps demoEnv 9 .Ghost none
                    (some demoGhost.transform.translation)).pos },
            (spawn_target demoOps demoEnv 9 .Ghost none
              (some demoGhost.transform.translation)).target],
        some (spawn_target demoOps demoEnv 9 .Ghost none
          (some demoGhost.transform.translation)).call) :=
  aim_check_promotion_effects demoOps demoEnv 9 demoCam demoActive demoNext demoGhost
    rfl rfl rfl (by decide) (by decide) (by decide) demoHitTrue

/-- Counterexample to C3 as stated: on the demo ring's promotion frame the
recorded spawn call passes the old Ghost's position (0,0,8) as the deadzone
and no aim point - not, as the claim says, no deadzone and the old Ghost's
position as aim point. -/
theorem aim_check_spawn_args_counterexample :
    spawnCallOf (aim_check demoOps demoEnv 9 (some demoCam)
        [demoActive, demoNext, demoGhost]) =
      some ⟨.Ghost, none, some ⟨0, 0, 8⟩, ⟨24/5, 32/5, 0⟩⟩ ∧
    ¬(spawnCallOf (aim_check demoOps demoEnv 9 (some demoCam)
        [demoActive, demoNext, demoGhost]) =
      some ⟨.Ghost, some ⟨0, 0, 8⟩, none, ⟨24/5, 32/5, 0⟩⟩) := by
  have hcall := aim_check_ring_hit_call demoOps demoEnv 9 demoCam demoActive demoNext
    demoGhost rfl rfl rfl demoHitTrue
  have hout : (spawn_target demoOps demoEnv 9 .Ghost none
      (some demoGhost.transform.translation)).pos = TARGET_DISTANCE • demoEnv.u := by
    apply spawn_target_pos_outside
    norm_num [demoEnv, demoGhost, TARGET_DISTANCE, DEADZONE_RADIUS_SQUARED,
      Vec3.lengthSq]
  have hrec : (spawn_target demoOps demoEnv 9 .Ghost none
      (some demoGhost.transform.translation)).call =
      ⟨.Ghost, none, some demoGhost.transform.translation,
        (spawn_target demoOps demoEnv 9 .Ghost none
          (some demoGhost.transform.translation)).pos⟩ := rfl
  have hmain : spawnCallOf (aim_check demoOps demoEnv 9 (some demoCam)
      [demoActive, demoNext, demoGhost]) =
      some ⟨.Ghost, none, some ⟨0, 0, 8⟩, ⟨24/5, 32/5, 0⟩⟩ := by
    rw [hcall, hrec, hout]
    norm_num [demoEnv, demoGhost, TARGET_DISTANCE, Option.some.injEq,
      SpawnCall.mk.injEq, Vec3.mk.injEq]
  refine ⟨hmain, ?_⟩
  rw [hmain]
  simp [SpawnCall.mk.injEq]

/-- Claim C3 (corrected): whenever the promotion fires, the replacement
Ghost is spawned with NO aim point and with the old Ghost's former position
supplied as the DEADZONE of the placement (the claim had the two arguments
swapped: aim_check hands the old Ghost translation to target_hit, whose
deadzone parameter spawn_target receives, while aim_point is None). -/
theorem aim_check_spawn_args {Q : Type} (ops : Ops Q) (env : SpawnEnv)
    (fid : ℕ) (cam : Transform Q) (a n g : TargetE Q)
    (ha : a.state = .Active) (hn : n.state = .Next) (hg : g.state = .Ghost)
    (hhit : rayHits cam.translation (ops.forward cam.rotation) MAX_RADIUS
      a.bounding = true) :
    spawnCallOf (aim_check ops env fid (some cam) [a, n, g]) =
      some ⟨.Ghost, none, some g.transform.translation,
        (spawn_target ops env fid .Ghost none
          (some g.transform.translation)).pos⟩ := by
  rw [aim_check_ring_hit_call ops env fid cam a n g ha hn hg hhit]
  rfl

/-- Witness for the amended C3 on the demo ring. -/
theorem aim_check_spawn_args_witness :
    spawnCallOf (aim_check demoOps demoEnv 9 (some demoCam)
        [demoActive, demoNext, demoGhost]) =
      some ⟨.Ghost, none, some demoGhost.transform.translation,
        (spawn_target demoOps demoEnv 9 .Ghost none
          (some demoGhost.transform.translation)).pos⟩ :=
  aim_check_spawn_args demoOps demoEnv 9 demoCam demoActive demoNext demoGhost
    rfl rfl rfl demoHitTrue

/-- A frame with a camera aborts exactly when the scan reports a hit and
recorded no Next or no Ghost (the missing-Next panic fires first, then the
missing-Ghost one; a successful scan with both present never errors). -/
lemma aim_check_panic_iff {Q : Type} (ops : Ops Q) (env : SpawnEnv) (fid : ℕ)
    (cam : Transform Q) (ts : List (TargetE Q)) :
    isPanic (aim_check ops env fid (some cam) ts) = true ↔
      (scanTargets cam.translation (ops.forward cam.rotation) ts).hit = true ∧
      ((scanTargets cam.translation (ops.forward cam.rotation) ts).nextT = none ∨
        (scanTargets cam.translation (ops.forward cam.rotation) ts).ghostT = none) := by
  simp only [aim_check]
  cases hh : (scanTargets cam.translation (ops.forward cam.rotation) ts).hit with
  | false => simp [isPanic, hh]
  | true =>
    have hsome := scanTargets_hit_activeId cam.translation
      (ops.forward cam.rotation) ts hh
    cases hnx : (scanTargets cam.translation (ops.forward cam.rotation) ts).nextT with
    | none => simp [isPanic, hh, hsome, hnx]
    | some nt =>
      cases hgh : (scanTargets cam.translation (ops.forward cam.rotation) ts).ghostT with
      | none => simp [isPanic, hh, hsome, hnx, hgh]
      | some gt => simp [isPanic, hh, hsome, hnx, hgh]

/-- A frame with a camera and no hit returns everything unchanged. -/
lemma aim_check_nohit_frame {Q : Type} (ops : Ops Q) (env : SpawnEnv) (fid : ℕ)
    (cam : Transform Q) (ts : List (TargetE Q))
    (hh : (scanTargets cam.translation (ops.forward cam.rotation) ts).hit = false) :
    aim_check ops env fid (some cam) ts = .ok (ts, none) := by
  simp only [aim_check]
  simp [hh]

/-- Claim C8 (confirmed): aim_check aborts the process exactly when a hit on
an Active target is detected while no target with state Next, or no target
with state Ghost, exists in the ring; when the camera is absent, or when no
Active target passes the ray test, the update neither aborts nor mutates
any target. -/
theorem aim_check_error_rule {Q : Type} (ops : Ops Q) (env : SpawnEnv) (fid : ℕ)
    (camera : Option (Transform Q)) (targets : List (TargetE Q)) :
    (∀ cam, camera = some cam →
      (isPanic (aim_check ops env fid camera targets) = true ↔
        (∃ t ∈ targets, t.state = .Active ∧
          rayHits cam.translation (ops.forward cam.rotation) MAX_RADIUS
            t.bounding = true) ∧
        ((∀ t ∈ targets, t.state ≠ .Next) ∨ (∀ t ∈ targets, t.state ≠ .Ghost)))) ∧
    (camera = none →
      isPanic (aim_check ops env fid camera targets) = false ∧
      aim_check ops env fid camera targets = .ok (targets, none)) ∧
    (∀ cam, camera = some cam →
      (∀ t ∈ targets, t.state = .Active →
        rayHits cam.translation (ops.forward cam.rotation) MAX_RADIUS
          t.bounding = false) →
      isPanic (aim_check ops env fid camera targets) = false ∧
      aim_check ops env fid camera targets = .ok (targets, none)) := by
  refine ⟨?_, ?_, ?_⟩
  · rintro cam rfl
    rw [aim_check_panic_iff, scanTargets_hit_iff, scanTargets_next_none_iff,
      scanTargets_ghost_none_iff]
  · rintro rfl
    exact ⟨rfl, rfl⟩
  · rintro cam rfl hno
    have hh : (scanTargets cam.translation (ops.forward cam.rotation)
        targets).hit = false := by
      cases hcase : (scanTargets cam.translation (ops.forward cam.rotation)
          targets).hit with
      | false => rfl
      | true =>
        obtain ⟨t, ht, hA, hR⟩ := (scanTargets_hit_iff _ _ _).mp hcase
        rw [hno t ht hA] at hR
        simp at hR
    have hok := aim_check_nohit_frame ops env fid cam targets hh
    exact ⟨by rw [hok]; rfl, hok⟩

/-- Witness for C8 on the demo ring with no camera: no abort, no change. -/
theorem aim_check_error_rule_witness :
    isPanic (aim_check demoOps demoEnv 9 none [demoActive, demoNext, demoGhost]) =
      false ∧
    aim_check demoOps demoEnv 9 none [demoActive, demoNext, demoGhost] =
      .ok ([demoActive, demoNext, demoGhost], none) :=
  (aim_check_error_rule demoOps demoEnv 9 none
    [demoActive, demoNext, demoGhost]).2.1 rfl

/-- Claim C10 (confirmed): orient_target rewrites only the rotation of a
transform (its translation is untouched); the bounding sphere a target is
created with is centered at the returned placement position with radius
TARGET_RADIUS; and across a promotion frame every surviving ring target
keeps its bounding sphere unchanged even though the promoted target's
transform was re-oriented. -/
theorem orient_target_rotation_only {Q : Type} (ops : Ops Q) (env : SpawnEnv)
    (fid : ℕ) (cam : Transform Q) (a n g : TargetE Q) (t : Transform Q) (p : Vec3)
    (st : TargetState) (ap dz : Option Vec3)
    (ha : a.state = .Active) (hn : n.state = .Next) (hg : g.state = .Ghost)
    (han : a.id ≠ n.id) (hag : a.id ≠ g.id) (hng : n.id ≠ g.id)
    (hfn : fid ≠ n.id) (hfg : fid ≠ g.id)
    (hhit : rayHits cam.translation (ops.forward cam.rotation) MAX_RADIUS
      a.bounding = true) :
    (orient_target ops t p).translation = t.translation ∧
    (spawn_target ops env fid st ap dz).target.bounding =
      ⟨(spawn_target ops env fid st ap dz).pos, TARGET_RADIUS⟩ ∧
    (∀ l c, aim_check ops env fid (some cam) [a, n, g] = .ok (l, c) →
      ∀ t' ∈ l, (t'.id = n.id → t'.bounding = n.bounding) ∧
        (t'.id = g.id → t'.bounding = g.bounding)) := by
  refine ⟨rfl, rfl, ?_⟩
  · intro l c heq t' ht'
    rw [aim_check_ring_hit ops env fid cam a n g ha hn hg han hag hng hhit] at heq
    simp only [Except.ok.injEq, Prod.mk.injEq] at heq
    obtain ⟨h1, h2⟩ := heq
    subst h1
    subst h2
    simp only [List.mem_cons, List.not_mem_nil, or_false] at ht'
    rcases ht' with rfl | rfl | rfl
    · exact ⟨fun _ => rfl, fun h => absurd h hng⟩
    · exact ⟨fun h => absurd h (Ne.symm hng), fun _ => rfl⟩
    · have hid : (spawn_target ops env fid .Ghost none
          (some g.transform.translation)).target.id = fid := rfl
      rw [hid]
      exact ⟨fun h => absurd h hfn, fun h => absurd h hfg⟩

/-- Witness for C10: translation invariance of orient_target at a concrete
transform and aim point. -/
theorem orient_target_rotation_only_witness :
    (orient_target demoOps ⟨⟨1, 2, 3⟩, 0⟩ ⟨4, 5, 6⟩).translation =
      (⟨1, 2, 3⟩ : Vec3) :=
  (orient_target_rotation_only demoOps demoEnv 9 demoCam demoActive demoNext
    demoGhost ⟨⟨1, 2, 3⟩, 0⟩ ⟨4, 5, 6⟩ .Ghost none none rfl rfl rfl
    (by decide) (by decide) (by decide) (by decide) (by decide) demoHitTrue).1

/-- Claim C6 (confirmed): when a deadzone center is supplied, a candidate at
squared distance below DEADZONE_RADIUS_SQUARED from it is replaced by the
result of exactly one application of the axis-angle quaternion about
(candidate - deadzone) x candidate, and that replacement differs from the
raw candidate (the sine of the half angle being nonzero); a candidate at
squared distance at least DEADZONE_RADIUS_SQUARED is returned unchanged. -/
theorem spawn_target_deadzone_rule {Q : Type} (ops : Ops Q) (env : SpawnEnv)
    (fid : ℕ) (st : TargetState) (ap : Option Vec3) (dz : Vec3)
    (hu : env.u.lengthSq = 1) (hsc : env.s * env.s + env.c * env.c = 1)
    (hs : env.s ≠ 0) :
    ((TARGET_DISTANCE • env.u - dz).lengthSq < DEADZONE_RADIUS_SQUARED →
      (spawn_target ops env fid st ap (some dz)).pos =
        (quatFromAxisAngle ((TARGET_DISTANCE • env.u - dz).cross
          (TARGET_DISTANCE • env.u)) env.s env.c).mulVec3
            (TARGET_DISTANCE • env.u) ∧
      (spawn_target ops env fid st ap (some dz)).pos ≠ TARGET_DISTANCE • env.u) ∧
    (¬((TARGET_DISTANCE • env.u - dz).lengthSq < DEADZONE_RADIUS_SQUARED) →
      (spawn_target ops env fid st ap (some dz)).pos = TARGET_DISTANCE • env.u) := by
  constructor
  · intro h
    have hpos := spawn_target_pos_deadzone ops env fid st ap dz h
    refine ⟨hpos, ?_⟩
    rw [hpos]
    intro heq
    have hlen : (TARGET_DISTANCE • env.u).lengthSq = 64 := by
      rw [Vec3.lengthSq_smul, hu]
      norm_num [TARGET_DISTANCE]
    have hdot := mulVec3_axis_dot (TARGET_DISTANCE • env.u - dz)
      (TARGET_DISTANCE • env.u) env.s env.c
    rw [heq, Vec3.dot_self, hlen] at hdot
    have hA := Vec3.lengthSq_nonneg
      ((TARGET_DISTANCE • env.u - dz).cross (TARGET_DISTANCE • env.u))
    have hs2 : 0 < env.s * env.s := mul_self_pos.mpr hs
    nlinarith [hdot, hsc, hA, hs2, mul_nonneg hs2.le hA]
  · intro h
    exact spawn_target_pos_outside ops env fid st ap dz h

/-- Witness for C6: with the demo oracle (candidate (24/5, 32/5, 0)) and a
deadzone center one unit away, the returned position was nudged away from
the raw candidate. -/
theorem spawn_target_deadzone_rule_witness :
    (spawn_target demoOps demoEnv 9 TargetState.Ghost none
      (some ⟨19/5, 32/5, 0⟩)).pos ≠ TARGET_DISTANCE • demoEnv.u :=
  ((spawn_target_deadzone_rule demoOps demoEnv 9 TargetState.Ghost none
    ⟨19/5, 32/5, 0⟩ (by norm_num [demoEnv, Vec3.lengthSq])
    (by norm_num [demoEnv]) (by norm_num [demoEnv])).1
    (by norm_num [demoEnv, TARGET_DISTANCE, DEADZONE_RADIUS_SQUARED,
      Vec3.lengthSq])).2

/-- Claim C7 (code_bug): the deadzone nudge does NOT keep the returned
position on the radius-8 shell. spawn_target passes the unnormalized cross
product as the axis of Quat::from_axis_angle (glam requires a unit axis),
so the applied quaternion has squared norm c^2 + |axis|^2 s^2 and mul_vec3
scales the candidate's length by that factor. At candidate (8,0,0) with
deadzone center (7,0,1) the axis is (0,-8,0), and the returned position has
squared length 64 (1 + 63 s^2)^2 > 64, i.e. it lies strictly outside the
shell (by about 0.05 at the real s = sin(-0.01)). -/
theorem spawn_target_deadzone_off_shell {Q : Type} (ops : Ops Q) (fid : ℕ)
    (s c : ℚ) (hsc : s * s + c * c = 1) (hs : s ≠ 0) :
    ((spawn_target ops ⟨⟨1, 0, 0⟩, s, c⟩ fid .Ghost none
        (some ⟨7, 0, 1⟩)).pos).lengthSq =
      64 * ((1 + 63 * (s * s)) * (1 + 63 * (s * s))) ∧
    64 < ((spawn_target ops ⟨⟨1, 0, 0⟩, s, c⟩ fid .Ghost none
        (some ⟨7, 0, 1⟩)).pos).lengthSq := by
  have hin : ((TARGET_DISTANCE • (⟨⟨1, 0, 0⟩, s, c⟩ : SpawnEnv).u) -
      ⟨7, 0, 1⟩).lengthSq < DEADZONE_RADIUS_SQUARED := by
    norm_num [TARGET_DISTANCE, DEADZONE_RADIUS_SQUARED, Vec3.lengthSq]
  have hpos := spawn_target_pos_deadzone ops ⟨⟨1, 0, 0⟩, s, c⟩ fid .Ghost none
    ⟨7, 0, 1⟩ hin
  have heq : ((spawn_target ops ⟨⟨1, 0, 0⟩, s, c⟩ fid .Ghost none
      (some ⟨7, 0, 1⟩)).pos).lengthSq =
      64 * ((1 + 63 * (s * s)) * (1 + 63 * (s * s))) := by
    rw [hpos]
    simp only [quatFromAxisAngle, QuatR.mulVec3, Vec3.cross, Vec3.dot,
      Vec3.lengthSq, Vec3.add_x, Vec3.add_y, Vec3.add_z, Vec3.sub_x, Vec3.sub_y,
      Vec3.sub_z, Vec3.smul_x, Vec3.smul_y, Vec3.smul_z, Vec3.smul_mk,
      TARGET_DISTANCE]
    linear_combination (64 * (c * c + 127 * (s * s) + 1)) * hsc
  refine ⟨heq, ?_⟩
  rw [heq]
  nlinarith [mul_self_pos.mpr hs, mul_self_nonneg (s * s)]

/-- Witness for C7 at the Pythagorean half-angle pair (3/5, 4/5): the
returned position's squared length strictly exceeds 64. -/
theorem spawn_target_deadzone_off_shell_witness :
    64 < ((spawn_target demoOps ⟨⟨1, 0, 0⟩, 3/5, 4/5⟩ 9 .Ghost none
        (some ⟨7, 0, 1⟩)).pos).lengthSq :=
  (spawn_target_deadzone_off_shell demoOps 9 (3/5) (4/5) (by norm_num)
    (by norm_num)).2

end RollingProto
